import Mathlib

/-!
Verification of the KnightShift PGN stream parser + upsert pipeline.

This file gives a shallow embedding, in Lean 4, of the core ingestion code of
the repository:

* `src/knightshift/utils/pgn_parser.py`     (`parse_pgn_lines`)
* `src/knightshift/db/game_upsert.py`       (`_parse_int`, `_parse_date`,
                                             `_parse_time`, `build_game_data`,
                                             `upsert_game`)
* `src/knightshift/ingestion/get_games_from_tv.py`
                                            (`_process_game_block`,
                                             `_parse_stream`, `_stream_channel`,
                                             and the channel sweep loop)

Python strings are embedded as Lean `String`s (manipulated through their
underlying `List Char` to keep every function structurally recursive and
kernel-reducible), Python `dict`s of headers as association lists where a
later insertion shadows earlier ones, the database table as a list of rows,
and a raised exception as the `Except.error` constructor.  A storage-layer
failure inside `upsert_game` (the `except` branch of the Python code) is
injected through an explicit `fail` flag.
-/

set_option linter.unusedVariables false

namespace KnightShift

/-! ### Python string primitives

Helpers modelling `str.strip`, `str.split`, `str.lower`, `"x".join`,
`str.startswith` and negative indexing, defined on `List Char` by structural
recursion. -/

/-- Drop the characters satisfying `p` from both ends of a list
(models Python `str.strip(chars)`). -/
def pyStripChars (p : Char → Bool) (l : List Char) : List Char :=
  ((l.dropWhile p).reverse.dropWhile p).reverse

/-- Python `str.strip()` with no argument: remove surrounding whitespace. -/
def pyStrip (s : String) : String :=
  ⟨pyStripChars (fun c => c.isWhitespace) s.data⟩

/-- Python `value.strip(chr(34))`: remove surrounding double quotes. -/
def stripQuotes (s : String) : String :=
  ⟨pyStripChars (fun c => c = '"') s.data⟩

/-- Python `s.split(sep)` for a one-character separator: always returns a
non-empty list of (possibly empty) parts. -/
def splitOnChar (c : Char) : List Char → List (List Char)
  | [] => [[]]
  | a :: rest =>
    let r := splitOnChar c rest
    if a = c then [] :: r
    else
      match r with
      | [] => [[a]]
      | h :: t => (a :: h) :: t

/-- Python `lst[-1]` on a list known to be non-empty (`[]` for the
impossible empty case). -/
def lastElem : List (List Char) → List Char
  | [] => []
  | [x] => x
  | _ :: y :: rest => lastElem (y :: rest)

/-- The last character of a character list, if any (used to state
"the string ends with `/`"). -/
def lastChar : List Char → Option Char
  | [] => none
  | [x] => some x
  | _ :: y :: rest => lastChar (y :: rest)

/-- Python `s.startswith(pre)`. -/
def pyStartsWith (pre s : String) : Bool :=
  pre.data.isPrefixOf s.data

/-- Python `" ".join(parts)`. -/
def joinSpace : List String → String
  | [] => ""
  | [x] => x
  | x :: y :: rest => x ++ " " ++ joinSpace (y :: rest)

/-- Python `s.lower()` (ASCII case, which is all the PGN tags use). -/
def pyLower (s : String) : String :=
  ⟨s.data.map Char.toLower⟩

/-! ### Field coercion helpers of `game_upsert.py` -/

/-- Decimal value of a digit list. -/
def decVal (l : List Char) : Nat :=
  l.foldl (fun a c => 10 * a + (c.toNat - '0'.toNat)) 0

/-- No two consecutive underscores (part of Python `int()` literal syntax). -/
def noDoubleUnderscore : List Char → Bool
  | '_' :: '_' :: _ => false
  | _ :: rest => noDoubleUnderscore rest
  | [] => true

/-- The digits-and-underscores body accepted by Python `int()`:
non-empty, only digits and underscores, underscores only between digits. -/
def pyIntBody? (l : List Char) : Option Nat :=
  if l = [] then none
  else if l.head? = some '_' ∨ lastChar l = some '_' then none
  else if l.all (fun c => c.isDigit || c = '_') && noDoubleUnderscore l then
    some (decVal (l.filter Char.isDigit))
  else none

/-- Python `int(s)` on a string: strips whitespace, allows one sign. -/
def pyInt? (s : String) : Option Int :=
  match pyStripChars (fun c => c.isWhitespace) s.data with
  | '+' :: rest => (pyIntBody? rest).map Int.ofNat
  | '-' :: rest => (pyIntBody? rest).map (fun n => -(n : Int))
  | t => (pyIntBody? t).map Int.ofNat

/-- `game_upsert._parse_int`: `None → None`; a string that strips to empty →
`None`; otherwise `int(value)` with `ValueError`/`TypeError` caught → `None`. -/
def _parse_int (value : Option String) : Option Int :=
  match value with
  | none => none
  | some s => if pyStrip s = "" then none else pyInt? s

/-- A calendar date as produced by Python `datetime.date`. -/
structure PyDate where
  year : Nat
  month : Nat
  day : Nat
deriving DecidableEq, Repr

/-- A time of day as produced by Python `datetime.time`. -/
structure PyTime where
  hour : Nat
  minute : Nat
  second : Nat
deriving DecidableEq, Repr

/-- `%Y` of `strptime`: exactly four digits. -/
def yearField? (l : List Char) : Option Nat :=
  if l.length = 4 && l.all Char.isDigit then some (decVal l) else none

/-- A one- or two-digit field of `strptime` whose value must lie in
`[lo, hi]` (covers `%m`, `%d`, `%H`, `%M`, `%S`). -/
def rangeField? (lo hi : Nat) (l : List Char) : Option Nat :=
  if (l.length = 1 || l.length = 2) && l.all Char.isDigit
      && lo ≤ decVal l && decVal l ≤ hi then
    some (decVal l)
  else none

/-- The fields matched by `strptime(s, chr(37) + "Y." + ...)`, i.e. the
format `%Y.%m.%d`: 4-digit year, month `1..12`, day `1..31`, each of the
last two written with one or two digits, separated by literal dots. -/
def dateFieldsOf (s : String) : Option (Nat × Nat × Nat) :=
  match splitOnChar '.' s.data with
  | [y, m, d] =>
    match yearField? y, rangeField? 1 12 m, rangeField? 1 31 d with
    | some Y, some M, some D => some (Y, M, D)
    | _, _, _ => none
  | _ => none

/-- Whether `s` matches the `YYYY.MM.DD` format the code's `strptime`
call accepts. -/
def matchesDateFormat (s : String) : Bool :=
  (dateFieldsOf s).isSome

/-- Gregorian leap year, as Python `datetime` uses. -/
def isLeap (y : Nat) : Bool :=
  y % 4 = 0 && (y % 100 ≠ 0 || y % 400 = 0)

/-- Days in a month, as Python `datetime` validates. -/
def daysInMonth (y m : Nat) : Nat :=
  if m = 2 then (if isLeap y then 29 else 28)
  else if m = 4 ∨ m = 6 ∨ m = 9 ∨ m = 11 then 30
  else 31

/-- `strptime(s, "%Y.%m.%d").date()`: format match plus the calendar
validation done by the `datetime` constructor (year ≥ 1, day within the
month); a failure is a raised `ValueError`, i.e. `none` here. -/
def pyStrptimeDate (s : String) : Option PyDate :=
  match dateFieldsOf s with
  | some (y, m, d) =>
    if 1 ≤ y ∧ d ≤ daysInMonth y m then some ⟨y, m, d⟩ else none
  | none => none

/-- `game_upsert._parse_date`: `None` or `""` (falsy) → `None`; otherwise
`strptime` with `ValueError` caught → `None`. -/
def _parse_date (value : Option String) : Option PyDate :=
  match value with
  | none => none
  | some s => if s = "" then none else pyStrptimeDate s

/-- The fields matched by the format `%H:%M:%S`: hour `0..23`,
minute `0..59`, second `0..61` (the `strptime` regex allows leap
seconds), each with one or two digits, separated by literal colons. -/
def timeFieldsOf (s : String) : Option (Nat × Nat × Nat) :=
  match splitOnChar ':' s.data with
  | [h, m, sec] =>
    match rangeField? 0 23 h, rangeField? 0 59 m, rangeField? 0 61 sec with
    | some H, some M, some S => some (H, M, S)
    | _, _, _ => none
  | _ => none

/-- Whether `s` matches the `HH:MM:SS` format the code's `strptime`
call accepts. -/
def matchesTimeFormat (s : String) : Bool :=
  (timeFieldsOf s).isSome

/-- `strptime(s, "%H:%M:%S").time()`: format match plus the constructor's
check that seconds are ≤ 59 (a leap second raises `ValueError`). -/
def pyStrptimeTime (s : String) : Option PyTime :=
  match timeFieldsOf s with
  | some (h, m, sec) => if sec ≤ 59 then some ⟨h, m, sec⟩ else none
  | none => none

/-- `game_upsert._parse_time`: `None` or `""` → `None`; otherwise
`strptime` with `ValueError` caught → `None`. -/
def _parse_time (value : Option String) : Option PyTime :=
  match value with
  | none => none
  | some s => if s = "" then none else pyStrptimeTime s

/-! ### The header dictionary -/

/-- A Python `dict` from header tag to value; a later insertion shadows an
earlier binding, so lookup takes the first match of this list. -/
abbrev Dict := List (String × String)

/-- `d[k] = v` (last occurrence wins, modelled by shadowing). -/
def dictInsert (m : Dict) (k v : String) : Dict :=
  (k, v) :: m

/-- `d.get(k)`. -/
def dictGet? (m : Dict) (k : String) : Option String :=
  (m.find? (fun p => p.1 = k)).map Prod.snd

/-- `d.get(k, default)`. -/
def dictGetD (m : Dict) (k d : String) : String :=
  (dictGet? m k).getD d

/-- `k in d`. -/
def dictContains (m : Dict) (k : String) : Bool :=
  (dictGet? m k).isSome

/-! ### `build_game_data` (game_upsert.py, lines 73–96) -/

/-- One row of the `tv_channel_games` table, with the column set of
`build_game_data`.  `tm_ingested` (`datetime.utcnow()` in the source) is an
abstract timestamp passed in by the caller. -/
structure GameRow where
  id_game : String
  val_event_name : String
  val_site_url : String
  dt_game : Option PyDate
  id_user_white : String
  id_user_black : String
  val_result : String
  dt_game_utc : Option PyDate
  tm_game_utc : Option PyTime
  val_elo_white : Option Int
  val_elo_black : Option Int
  val_title_white : String
  val_title_black : String
  val_variant : String
  val_time_control : String
  val_opening_eco_code : String
  val_termination : String
  val_moves_pgn : String
  val_opening_name : String
  tm_ingested : Nat
deriving DecidableEq, Repr

/-- `raw.get("site", "").split("/")[-1]`. -/
def siteToGameId (site : String) : String :=
  ⟨lastElem (splitOnChar '/' site.data)⟩

/-- `build_game_data`: normalise a parsed PGN dictionary into a DB row.
`now` stands for `datetime.utcnow()`. -/
def build_game_data (raw : Dict) (now : Nat) : GameRow where
  id_game := siteToGameId (dictGetD raw "site" "")
  val_event_name := dictGetD raw "event" ""
  val_site_url := dictGetD raw "site" ""
  dt_game := _parse_date (dictGet? raw "date")
  id_user_white := dictGetD raw "white" ""
  id_user_black := dictGetD raw "black" ""
  val_result := dictGetD raw "result" ""
  dt_game_utc := _parse_date (dictGet? raw "utcdate")
  tm_game_utc := _parse_time (dictGet? raw "utctime")
  val_elo_white := _parse_int (dictGet? raw "whiteelo")
  val_elo_black := _parse_int (dictGet? raw "blackelo")
  val_title_white := dictGetD raw "whitetitle" ""
  val_title_black := dictGetD raw "blacktitle" ""
  val_variant := dictGetD raw "variant" ""
  val_time_control := dictGetD raw "timecontrol" ""
  val_opening_eco_code := dictGetD raw "eco" ""
  val_termination := dictGetD raw "termination" ""
  val_moves_pgn := dictGetD raw "moves" ""
  val_opening_name := dictGetD raw "opening" ""
  tm_ingested := now

/-! ### `upsert_game` (game_upsert.py, lines 99–134) -/

/-- The storage operations `upsert_game` can issue, recorded as a trace. -/
inductive DbOp
  | opSelect
  | opInsert
  | opUpdate
  | opRollback
deriving DecidableEq, Repr

/-- `upsert_game(session, table, game)`.

The table is a list of rows; the result is the new table, the returned
boolean (`True` iff an existing row was updated), and the trace of storage
operations issued.

* An empty (falsy) `id_game` returns `False` before touching the session.
* `fail = true` models the `except Exception` branch: the transaction is
  rolled back (table unchanged) and `False` is returned.
* Otherwise the code SELECTs the id; if found it UPDATEs every column of
  every row matching the id, else it INSERTs the record. -/
def upsert_game (fail : Bool) (tbl : List GameRow) (game : GameRow) :
    List GameRow × Bool × List DbOp :=
  if game.id_game = "" then (tbl, false, [])
  else if fail then (tbl, false, [DbOp.opRollback])
  else if tbl.any (fun r => r.id_game = game.id_game) then
    (tbl.map (fun r => if r.id_game = game.id_game then game else r),
     true, [DbOp.opSelect, DbOp.opUpdate])
  else
    (tbl ++ [game], false, [DbOp.opSelect, DbOp.opInsert])

/-! ### `parse_pgn_lines` (pgn_parser.py, lines 12–43)

The Python function raises `ValueError` when a bracketed line, after the
outer brackets are sliced off, contains no space to split on
(`key, value = decoded_line[1:-1].split(" ", 1)` with a single-element
result).  That possibility is embedded as `Except.error ()`. -/

/-- Split a character list at the first space, Python `split(" ", 1)`;
`none` when the list has no space (the `ValueError` case). -/
def splitFirstSpace : List Char → Option (List Char × List Char)
  | [] => none
  | c :: rest =>
    if c = ' ' then some ([], rest)
    else
      match splitFirstSpace rest with
      | none => none
      | some (a, b) => some (c :: a, b)

/-- Decode one already-stripped header line (starting with a bracket):
slice off the first and last character, split at the first space, lowercase
the tag and strip the quotes from the value.  `Except.error ()` is the
uncaught `ValueError` of a line with no space. -/
def parseHeaderLine (s : String) : Except Unit (String × String) :=
  match splitFirstSpace ((s.data.drop 1).dropLast) with
  | none => Except.error ()
  | some (k, v) => Except.ok (pyLower ⟨k⟩, stripQuotes ⟨v⟩)

/-- Whether a raw line is, after stripping, a bracketed header with no
space separator — exactly the lines on which `parse_pgn_lines` raises. -/
def isMalformedHeaderLine (l : String) : Bool :=
  pyStartsWith "[" (pyStrip l)
    && (splitFirstSpace (((pyStrip l).data.drop 1).dropLast)).isNone

/-- The loop body of `parse_pgn_lines`, threading the header dict and the
accumulated movetext lines. -/
def parsePgnGo : List String → Dict → List String → Except Unit Dict
  | [], hdrs, moves => Except.ok (dictInsert hdrs "moves" (joinSpace moves))
  | l :: rest, hdrs, moves =>
    let d := pyStrip l
    if pyStartsWith "[" d then
      match parseHeaderLine d with
      | Except.error e => Except.error e
      | Except.ok (k, v) => parsePgnGo rest (dictInsert hdrs k v) moves
    else if d = "" then parsePgnGo rest hdrs moves
    else parsePgnGo rest hdrs (moves ++ [d])

/-- `parse_pgn_lines`: headers (lowercased keys) plus a final `"moves"`
entry joining the movetext lines with single spaces. -/
def parse_pgn_lines (lines : List String) : Except Unit Dict :=
  parsePgnGo lines [] []

/-! ### `_process_game_block` (get_games_from_tv.py, lines 137–153) -/

/-- The mutable state the ingestion loop threads through one sweep: the
table plus the `added` and `updated` id lists. -/
structure PipeState where
  table : List GameRow
  added : List String
  updated : List String
deriving DecidableEq, Repr

/-- `_process_game_block`: parse the block (a raised `ValueError`
propagates, there is no handler), return early when `"site"` is absent,
else build the row, upsert it, and append its id to `updated` when
`upsert_game` returned `True`, to `added` otherwise. -/
def _process_game_block (fail : Bool) (now : Nat) (lines : List String)
    (st : PipeState) : Except Unit PipeState :=
  match parse_pgn_lines lines with
  | Except.error e => Except.error e
  | Except.ok game =>
    if dictContains game "site" then
      let row := build_game_data game now
      let res := upsert_game fail st.table row
      if res.2.1 then
        Except.ok ⟨res.1, st.added, st.updated ++ [row.id_game]⟩
      else
        Except.ok ⟨res.1, st.added ++ [row.id_game], st.updated⟩
    else Except.ok st

/-! ### `_parse_stream` (get_games_from_tv.py, lines 183–200) -/

/-- The block-assembly loop of `_parse_stream`, projected to the list of
completed blocks it hands to `_process_game_block`: empty raw lines are
skipped, every other line is buffered, and a stripped line starting with
`"1. "` completes the current block; a trailing partial buffer is
discarded. -/
def streamBlocksGo : List String → List String → List (List String)
  | [], _ => []
  | raw :: rest, buf =>
    if raw = "" then streamBlocksGo rest buf
    else
      let buf' := buf ++ [raw]
      if pyStartsWith "1. " (pyStrip raw) then
        buf' :: streamBlocksGo rest []
      else streamBlocksGo rest buf'

/-- The blocks `_parse_stream` emits for a given response body. -/
def _parse_stream (lines : List String) : List (List String) :=
  streamBlocksGo lines []

/-- The record `_process_game_block` would build from one block, when it
builds one: `none` on the missing-`site` guard (and on a parse error the
exception propagates, embedded here as `none` as well since no record is
produced). -/
def buildFromBlock (now : Nat) (lines : List String) : Option GameRow :=
  match parse_pgn_lines lines with
  | Except.error _ => none
  | Except.ok game =>
    if dictContains game "site" then some (build_game_data game now)
    else none

/-! ### `_stream_channel` and the channel sweep
(get_games_from_tv.py, lines 156–178 and 206–231) -/

/-- One HTTP response: status code and body lines. -/
structure Response where
  status : Nat
  body : List String
deriving DecidableEq, Repr

/-- `requests.Response.ok`: status below 400. -/
def respOk (r : Response) : Bool :=
  r.status < 400

/-- What `_stream_channel` does for one channel. -/
inductive ChannelOutcome
  | fatal
  | streamed (r : Response)
  | skipped
deriving DecidableEq, Repr

/-- The `for attempt in range(1, 4)` retry loop of `_stream_channel`: each
attempt consumes the next response the upstream would give; a 429 calls
`sys.exit(1)` (`fatal`), an ok response breaks out and is streamed, any
other status retries; exhausting the three attempts (or the modelled
response list) hits the `for`–`else` branch and skips the channel. -/
def streamChannelGo : Nat → List Response → ChannelOutcome
  | 0, _ => ChannelOutcome.skipped
  | _ + 1, [] => ChannelOutcome.skipped
  | n + 1, r :: rest =>
    if r.status = 429 then ChannelOutcome.fatal
    else if respOk r then ChannelOutcome.streamed r
    else streamChannelGo n rest

/-- `_stream_channel`, with the channel's successive upstream responses
given as a list. -/
def _stream_channel (attempts : List Response) : ChannelOutcome :=
  streamChannelGo 3 attempts

/-- The `for ch in CHANNELS` sweep of `run_tv_ingestion`, projected to
which channels get requests issued: returns the channels attempted, in
order, and whether the run was terminated by `sys.exit(1)`.  A fatal
channel is the last one attempted; otherwise the sweep continues. -/
def runSweep : List (List Response) → List (List Response) × Bool
  | [] => ([], false)
  | c :: rest =>
    match _stream_channel c with
    | ChannelOutcome.fatal => ([c], true)
    | _ =>
      let r := runSweep rest
      (c :: r.1, r.2)

/-! ## Theorems -/

/-- C4: fed the six non-blank lines of the spec's block-boundary example,
the assembler emits exactly two blocks, the first ending at `1. e4 e5`
and the second at `1. d4 d5`, and the builder then produces exactly two
records with game ids `abc123` and `def456` respectively. -/
theorem block_boundary_c4 :
    _parse_stream ["[Event \"E\"]", "[Site \"https://x/abc123\"]", "1. e4 e5",
        "[Event \"E2\"]", "[Site \"https://x/def456\"]", "1. d4 d5"]
      = [["[Event \"E\"]", "[Site \"https://x/abc123\"]", "1. e4 e5"],
         ["[Event \"E2\"]", "[Site \"https://x/def456\"]", "1. d4 d5"]] ∧
    (_parse_stream ["[Event \"E\"]", "[Site \"https://x/abc123\"]", "1. e4 e5",
        "[Event \"E2\"]", "[Site \"https://x/def456\"]", "1. d4 d5"]).map
        (fun b => (buildFromBlock 0 b).map GameRow.id_game)
      = [some "abc123", some "def456"] :=
  ⟨by decide, by decide⟩

/-- C7: the coercion helpers are total functions into `Option`:
integer coercion of `"?"`, `""` and `None` yields `None` while `"2100"`
yields `2100`; date coercion of the invalid calendar date `"2025.13.99"`
and of every string failing the `%Y.%m.%d` format yields `None`; time
coercion of every string failing the `%H:%M:%S` format yields `None`. -/
theorem coercion_total_c7 :
    _parse_int (some "?") = none ∧
    _parse_int (some "") = none ∧
    _parse_int none = none ∧
    _parse_int (some "2100") = some 2100 ∧
    _parse_date (some "2025.13.99") = none ∧
    (∀ s : String, matchesDateFormat s = false → _parse_date (some s) = none) ∧
    (∀ s : String, matchesTimeFormat s = false → _parse_time (some s) = none) := by
  refine ⟨by decide, by decide, rfl, by decide, by decide, ?_, ?_⟩
  · intro s h
    unfold _parse_date
    by_cases hs : s = ""
    · simp [hs]
    · cases hd : dateFieldsOf s with
      | none => simp [hs, pyStrptimeDate, hd]
      | some v =>
        rw [matchesDateFormat, hd] at h
        simp at h
  · intro s h
    unfold _parse_time
    by_cases hs : s = ""
    · simp [hs]
    · cases hd : timeFieldsOf s with
      | none => simp [hs, pyStrptimeTime, hd]
      | some v =>
        rw [matchesTimeFormat, hd] at h
        simp at h

/-- Witness for C7: the format-mismatch implications applied at the
concrete inputs `"2025-01-01"` and `"25:00:00"`. -/
theorem coercion_total_c7_wit :
    _parse_date (some "2025-01-01") = none ∧ _parse_time (some "25:00:00") = none :=
  ⟨coercion_total_c7.2.2.2.2.2.1 "2025-01-01" (by decide),
   coercion_total_c7.2.2.2.2.2.2 "25:00:00" (by decide)⟩

/-- C8: a block whose parsed header dictionary has no `site` key produces
no record and never reaches the upsert engine — the table and both id
lists come back unchanged. -/
theorem missing_site_guard_c8 (fail : Bool) (now : Nat) (lines : List String)
    (st : PipeState) (game : Dict)
    (hparse : parse_pgn_lines lines = Except.ok game)
    (hsite : dictContains game "site" = false) :
    _process_game_block fail now lines st = Except.ok st := by
  unfold _process_game_block
  rw [hparse]
  simp [hsite]

/-- Witness for C8: a block with an `Event` header but no `Site` header
leaves an arbitrary concrete state untouched. -/
theorem missing_site_guard_c8_wit :
    _process_game_block false 0 ["[Event \"E\"]", "1. e4"] ⟨[], ["a"], ["b"]⟩
      = Except.ok ⟨[], ["a"], ["b"]⟩ :=
  missing_site_guard_c8 false 0 ["[Event \"E\"]", "1. e4"] ⟨[], ["a"], ["b"]⟩
    [("moves", "1. e4"), ("event", "E")] rfl rfl

/-- C9: a 429 from the upstream API is fatal for the whole run — the sweep
terminates at the channel that produced it and no request is issued for
any later channel of that sweep. -/
theorem rate_limit_fatal_c9 (pre post : List (List Response)) (c : List Response)
    (hpre : ∀ x ∈ pre, _stream_channel x ≠ ChannelOutcome.fatal)
    (hc : _stream_channel c = ChannelOutcome.fatal) :
    runSweep (pre ++ c :: post) = (pre ++ [c], true) := by
  induction pre with
  | nil => simp [runSweep, hc]
  | cons a t ih =>
    have ha := hpre a (List.mem_cons_self a t)
    have ih' := ih (fun x hx => hpre x (List.mem_cons_of_mem a hx))
    rw [List.cons_append]
    cases hco : _stream_channel a with
    | fatal => exact absurd hco ha
    | streamed r => simp [runSweep, hco, ih']
    | skipped => simp [runSweep, hco, ih']

/-- Witness for C9: five channels, the third answering 429 on its first
attempt — exactly the first three are attempted and the run is killed. -/
theorem rate_limit_fatal_c9_wit :
    runSweep [[⟨200, []⟩], [⟨200, []⟩], [⟨429, []⟩], [⟨200, []⟩], [⟨200, []⟩]]
      = ([[⟨200, []⟩], [⟨200, []⟩], [⟨429, []⟩]], true) :=
  rate_limit_fatal_c9 [[⟨200, []⟩], [⟨200, []⟩]] [[⟨200, []⟩], [⟨200, []⟩]]
    [⟨429, []⟩] (by decide) (by decide)

/-! ### Helper lemmas about `upsert_game` -/

/-- The table invariant: at most one row per game id. -/
def atMostOneRowPerId (tbl : List GameRow) : Prop :=
  ∀ g : String, (tbl.filter (fun r => r.id_game = g)).length ≤ 1

theorem filter_map_eq (f : GameRow → GameRow) (p : GameRow → Bool)
    (l : List GameRow) :
    List.filter p (l.map f) = List.map f (l.filter (fun x => p (f x))) := by
  induction l with
  | nil => rfl
  | cons a t ih =>
    by_cases h : p (f a) <;> simp [List.filter_cons, h, ih]

theorem upd_pred_eq (game : GameRow) (g : String) :
    (fun r : GameRow =>
      decide ((if r.id_game = game.id_game then game else r).id_game = g))
      = (fun r : GameRow => decide (r.id_game = g)) := by
  funext r
  by_cases h : r.id_game = game.id_game <;> simp [h]

theorem filter_eq_nil_of_any_false (p : GameRow → Bool) (l : List GameRow)
    (h : l.any p = false) : l.filter p = [] := by
  induction l with
  | nil => rfl
  | cons a t ih =>
    simp only [List.any_cons, Bool.or_eq_false_iff] at h
    simp [List.filter_cons, h.1, ih h.2]

theorem mem_of_length_le_one {l : List GameRow} {x : GameRow}
    (hlen : l.length ≤ 1) (hx : x ∈ l) : l = [x] := by
  match l, hx with
  | [a], hx =>
    simp only [List.mem_singleton] at hx
    rw [hx]
  | a :: b :: t, _ => simp at hlen

theorem map_upd_eq_self (game : GameRow) (l : List GameRow)
    (h : ∀ r ∈ l, ¬r.id_game = game.id_game) :
    l.map (fun r => if r.id_game = game.id_game then game else r) = l := by
  induction l with
  | nil => rfl
  | cons a t ih =>
    have ha := h a (List.mem_cons_self a t)
    simp [ha, ih (fun r hr => h r (List.mem_cons_of_mem a hr))]

/-- A successful `upsert_game` preserves the at-most-one-row invariant. -/
theorem upsert_keeps_atMostOne (fail : Bool) (tbl : List GameRow)
    (game : GameRow) (h : atMostOneRowPerId tbl) :
    atMostOneRowPerId (upsert_game fail tbl game).1 := by
  unfold upsert_game
  by_cases h0 : game.id_game = ""
  · simpa [h0] using h
  by_cases hf : fail
  · simpa [h0, hf] using h
  by_cases h2 : tbl.any (fun r => r.id_game = game.id_game)
  · simp only [h0, hf, h2, if_true, if_false, Bool.false_eq_true]
    intro g
    rw [filter_map_eq, upd_pred_eq game g, List.length_map]
    exact h g
  · simp only [h0, hf, h2, if_true, if_false, Bool.false_eq_true]
    intro g
    rw [List.filter_append]
    by_cases hg : game.id_game = g
    · have hnil : tbl.filter (fun r => r.id_game = g) = [] := by
        apply filter_eq_nil_of_any_false
        rw [← hg]
        simpa using h2
      simp [hnil, hg]
    · simp [List.filter_cons, hg]
      exact h g

/-- After a successful `upsert_game`, the rows carrying the upserted id
are exactly the upserted record. -/
theorem upsert_filter_self (tbl : List GameRow) (game : GameRow)
    (h : atMostOneRowPerId tbl) (hne : ¬game.id_game = "") :
    (upsert_game false tbl game).1.filter
      (fun r => r.id_game = game.id_game) = [game] := by
  unfold upsert_game
  by_cases h2 : tbl.any (fun r => r.id_game = game.id_game)
  · simp only [hne, h2, if_true, if_false, Bool.false_eq_true]
    obtain ⟨x, hxmem, hxid⟩ := List.any_eq_true.1 h2
    simp only [decide_eq_true_eq] at hxid
    have hxf : x ∈ tbl.filter (fun r => r.id_game = game.id_game) :=
      List.mem_filter.2 ⟨hxmem, by simpa using hxid⟩
    have hone : tbl.filter (fun r => r.id_game = game.id_game) = [x] :=
      mem_of_length_le_one (h game.id_game) hxf
    rw [filter_map_eq, upd_pred_eq game game.id_game, hone]
    simp [hxid]
  · simp only [hne, h2, if_true, if_false, Bool.false_eq_true]
    rw [List.filter_append,
      filter_eq_nil_of_any_false _ _ (by simpa using h2)]
    simp [List.filter_cons]

/-- C1: starting from any table holding at most one row per game id, every
call to `upsert_game` — inserting, updating, skipping an empty id, or
failing — leaves a table still holding at most one row per game id. -/
theorem upsert_unique_c1 (fail : Bool) (tbl : List GameRow) (game : GameRow)
    (h : atMostOneRowPerId tbl) :
    atMostOneRowPerId (upsert_game fail tbl game).1 :=
  upsert_keeps_atMostOne fail tbl game h

/-- Witness for C1: the invariant holds after upserting a concrete record
into the empty table. -/
theorem upsert_unique_c1_wit :
    atMostOneRowPerId
      (upsert_game false [] (build_game_data [("site", "https://x/abc")] 0)).1 :=
  upsert_unique_c1 false [] (build_game_data [("site", "https://x/abc")] 0)
    (fun g => by simp)

/-- C2: upserting the identical record twice onto a table where its id is
absent reports inserted (`false`) then updated (`true`), the stored row
for the id after the first call is exactly the record, and the second call
leaves the whole table unchanged. -/
theorem upsert_idempotent_c2 (tbl : List GameRow) (game : GameRow)
    (hne : ¬game.id_game = "")
    (habs : tbl.any (fun r => r.id_game = game.id_game) = false) :
    (upsert_game false tbl game).2.1 = false ∧
    (upsert_game false (upsert_game false tbl game).1 game).2.1 = true ∧
    (upsert_game false tbl game).1.filter
      (fun r => r.id_game = game.id_game) = [game] ∧
    (upsert_game false (upsert_game false tbl game).1 game).1
      = (upsert_game false tbl game).1 := by
  have hall : ∀ r ∈ tbl, ¬r.id_game = game.id_game := by
    intro r hr
    intro hcontra
    have : tbl.any (fun r => r.id_game = game.id_game) = true :=
      List.any_eq_true.2 ⟨r, hr, by simpa using hcontra⟩
    rw [habs] at this
    exact Bool.false_ne_true this
  have h1 : upsert_game false tbl game
      = (tbl ++ [game], false, [DbOp.opSelect, DbOp.opInsert]) := by
    unfold upsert_game
    simp [hne, habs]
  have hany2 : (tbl ++ [game]).any (fun r => r.id_game = game.id_game) = true :=
    List.any_eq_true.2 ⟨game, by simp, by simp⟩
  have h2 : upsert_game false (tbl ++ [game]) game
      = ((tbl ++ [game]).map
          (fun r => if r.id_game = game.id_game then game else r),
         true, [DbOp.opSelect, DbOp.opUpdate]) := by
    unfold upsert_game
    simp [hne, hany2]
  have hmap : (tbl ++ [game]).map
      (fun r => if r.id_game = game.id_game then game else r)
      = tbl ++ [game] := by
    rw [List.map_append, map_upd_eq_self game tbl hall]
    simp
  refine ⟨by rw [h1], ?_, ?_, ?_⟩
  · rw [h1]
    simp only
    rw [h2]
  · rw [h1]
    simp only
    rw [List.filter_append, filter_eq_nil_of_any_false _ _ habs]
    simp [List.filter_cons]
  · rw [h1]
    simp only
    rw [h2]
    simp only
    rw [hmap]

/-- Witness for C2: double-upsert of a concrete record into the empty
table. -/
theorem upsert_idempotent_c2_wit :
    (upsert_game false []
        (build_game_data [("site", "https://x/abc")] 5)).2.1 = false ∧
    (upsert_game false
        (upsert_game false [] (build_game_data [("site", "https://x/abc")] 5)).1
        (build_game_data [("site", "https://x/abc")] 5)).2.1 = true ∧
    (upsert_game false [] (build_game_data [("site", "https://x/abc")] 5)).1.filter
      (fun r => r.id_game = (build_game_data [("site", "https://x/abc")] 5).id_game)
      = [build_game_data [("site", "https://x/abc")] 5] ∧
    (upsert_game false
        (upsert_game false [] (build_game_data [("site", "https://x/abc")] 5)).1
        (build_game_data [("site", "https://x/abc")] 5)).1
      = (upsert_game false [] (build_game_data [("site", "https://x/abc")] 5)).1 :=
  upsert_idempotent_c2 [] (build_game_data [("site", "https://x/abc")] 5)
    (by decide) (by decide)

/-- C3: last-write-wins — upserting a record for id `X` and then a second
record for the same id leaves exactly one stored row for `X`, every column
of which is the second record's value. -/
theorem last_write_wins_c3 (tbl : List GameRow) (r1 r2 : GameRow)
    (h : atMostOneRowPerId tbl) (hne : ¬r1.id_game = "")
    (hid : r2.id_game = r1.id_game) :
    (upsert_game false (upsert_game false tbl r1).1 r2).1.filter
      (fun r => r.id_game = r1.id_game) = [r2] := by
  have h1 : atMostOneRowPerId (upsert_game false tbl r1).1 :=
    upsert_keeps_atMostOne false tbl r1 h
  have h2 := upsert_filter_self (upsert_game false tbl r1).1 r2 h1
    (by rw [hid]; exact hne)
  simpa [hid] using h2

/-- Witness for C3: the spec's scenario — an in-progress record
(result `*`) for id `xyz` followed by a finished record (result `1-0`,
longer movetext) leaves exactly the finished record stored for `xyz`. -/
theorem last_write_wins_c3_wit :
    (upsert_game false
        (upsert_game false []
          (build_game_data
            [("moves", "1. e4"), ("result", "*"), ("site", "https://x/xyz")] 1)).1
        (build_game_data
          [("moves", "1. e4 e5 2. Nf3"), ("result", "1-0"),
           ("site", "https://x/xyz")] 2)).1.filter
      (fun r => r.id_game =
        (build_game_data
          [("moves", "1. e4"), ("result", "*"), ("site", "https://x/xyz")] 1).id_game)
      = [build_game_data
          [("moves", "1. e4 e5 2. Nf3"), ("result", "1-0"),
           ("site", "https://x/xyz")] 2] :=
  last_write_wins_c3 []
    (build_game_data
      [("moves", "1. e4"), ("result", "*"), ("site", "https://x/xyz")] 1)
    (build_game_data
      [("moves", "1. e4 e5 2. Nf3"), ("result", "1-0"),
       ("site", "https://x/xyz")] 2)
    (fun g => by simp) (by decide) (by decide)

/-! ### Helper lemmas about `split("/")[-1]` -/

theorem splitOnChar_ne_nil (c : Char) (l : List Char) : splitOnChar c l ≠ [] := by
  cases l with
  | nil => simp [splitOnChar]
  | cons a rest =>
    unfold splitOnChar
    by_cases h : a = c
    · simp [h]
    · simp only [h, if_false]
      cases splitOnChar c rest <;> simp

theorem two_le_length_splitOnChar (c : Char) (l : List Char) (h : c ∈ l) :
    2 ≤ (splitOnChar c l).length := by
  induction l with
  | nil => cases h
  | cons a rest ih =>
    unfold splitOnChar
    by_cases ha : a = c
    · simp only [ha, if_true]
      have := splitOnChar_ne_nil c rest
      cases hr : splitOnChar c rest with
      | nil => exact absurd hr this
      | cons x t => simp
    · have hrest : c ∈ rest := by
        cases List.mem_cons.1 h with
        | inl h1 => exact absurd h1.symm ha
        | inr h2 => exact h2
      simp only [ha, if_false]
      cases hr : splitOnChar c rest with
      | nil => exact absurd hr (splitOnChar_ne_nil c rest)
      | cons x t =>
        have := ih hrest
        rw [hr] at this
        simpa using this

theorem lastChar_mem (l : List Char) (c : Char) (h : lastChar l = some c) :
    c ∈ l := by
  induction l with
  | nil => cases h
  | cons a rest ih =>
    cases rest with
    | nil =>
      simp only [lastChar, Option.some.injEq] at h
      simp [h]
    | cons b t =>
      have : lastChar (b :: t) = some c := h
      exact List.mem_cons_of_mem a (ih this)

theorem lastElem_cons_of_ne_nil (x : List Char) (r : List (List Char))
    (h : r ≠ []) : lastElem (x :: r) = lastElem r := by
  cases r with
  | nil => exact absurd rfl h
  | cons y t => rfl

theorem lastChar_cons_of_ne_nil (a : Char) (l : List Char) (h : l ≠ []) :
    lastChar (a :: l) = lastChar l := by
  cases l with
  | nil => exact absurd rfl h
  | cons b t => rfl

/-- The last part of splitting at `c` is empty exactly when the list is
empty or ends with `c`. -/
theorem lastElem_splitOnChar_eq_nil_iff (c : Char) (l : List Char) :
    lastElem (splitOnChar c l) = [] ↔ (l = [] ∨ lastChar l = some c) := by
  induction l with
  | nil => simp [splitOnChar, lastElem]
  | cons a rest ih =>
    unfold splitOnChar
    by_cases ha : a = c
    · simp only [ha, if_true]
      rw [lastElem_cons_of_ne_nil [] _ (splitOnChar_ne_nil c rest)]
      cases rest with
      | nil => simp [splitOnChar, lastElem, lastChar, ha]
      | cons b t =>
        rw [ih]
        constructor
        · intro hh
          cases hh with
          | inl h1 => cases h1
          | inr h2 =>
            right
            rwa [lastChar_cons_of_ne_nil c (b :: t) (by simp)]
        · intro hh
          cases hh with
          | inl h1 => cases h1
          | inr h2 =>
            right
            rwa [lastChar_cons_of_ne_nil c (b :: t) (by simp)] at h2
    · simp only [ha, if_false]
      cases hr : splitOnChar c rest with
      | nil => exact absurd hr (splitOnChar_ne_nil c rest)
      | cons x t =>
        cases t with
        | nil =>
          simp only [lastElem]
          constructor
          · intro hh
            cases hh
          · intro hh
            cases hh with
            | inl h1 => cases h1
            | inr h2 =>
              exfalso
              cases rest with
              | nil =>
                simp only [lastChar, Option.some.injEq] at h2
                exact ha h2
              | cons b tt =>
                rw [lastChar_cons_of_ne_nil a (b :: tt) (by simp)] at h2
                have hcm : c ∈ b :: tt := lastChar_mem _ _ h2
                have h2le := two_le_length_splitOnChar c (b :: tt) hcm
                rw [hr] at h2le
                simp at h2le
        | cons y ts =>
          rw [lastElem_cons_of_ne_nil (a :: x) (y :: ts) (by simp)]
          have hrestne : rest ≠ [] := by
            intro hre
            rw [hre] at hr
            simp [splitOnChar] at hr
          rw [← lastElem_cons_of_ne_nil x (y :: ts) (by simp), ← hr, ih,
            lastChar_cons_of_ne_nil a rest hrestne]
          constructor
          · intro hh
            cases hh with
            | inl h1 => exact absurd h1 hrestne
            | inr h2 => exact Or.inr h2
          · intro hh
            cases hh with
            | inl h1 => cases h1
            | inr h2 => exact Or.inr h2

/-- C10: `build_game_data` derives an empty `id_game` exactly when the
`site` value (defaulting to `""` when absent) is empty or ends with `/`;
and on an empty id, `upsert_game` issues no storage operation at all,
leaves the table unchanged, and returns `False`. -/
theorem empty_id_skipped_c10 (raw : Dict) (now : Nat) (fail : Bool)
    (tbl : List GameRow) :
    ((build_game_data raw now).id_game = "" ↔
      (dictGetD raw "site" "" = "" ∨
        lastChar (dictGetD raw "site" "").data = some '/')) ∧
    ((build_game_data raw now).id_game = "" →
      upsert_game fail tbl (build_game_data raw now) = (tbl, false, [])) := by
  constructor
  · show siteToGameId (dictGetD raw "site" "") = "" ↔ _
    unfold siteToGameId
    rw [show ("" : String) = ⟨[]⟩ from rfl]
    rw [String.ext_iff, String.ext_iff]
    simpa using lastElem_splitOnChar_eq_nil_iff '/' (dictGetD raw "site" "").data
  · intro hid
    unfold upsert_game
    simp [hid]

/-- Witness for C10: a site URL ending in `/` yields an empty id, and the
upsert on it is a silent no-op returning `False`. -/
theorem empty_id_skipped_c10_wit :
    upsert_game false [] (build_game_data [("site", "https://x/")] 3)
      = ([], false, []) :=
  (empty_id_skipped_c10 [("site", "https://x/")] 3 false []).2 (by decide)

/-! ### C5: malformed header lines -/

/-- A block containing any malformed header line makes `parse_pgn_lines`
raise: the loop reaches the first such line (every earlier line either
decodes or is itself malformed) and the `split` unpacking fails. -/
theorem parsePgnGo_error (lines : List String) :
    ∀ hdrs moves, (∃ l ∈ lines, isMalformedHeaderLine l = true) →
      parsePgnGo lines hdrs moves = Except.error () := by
  induction lines with
  | nil =>
    intro hdrs moves h
    obtain ⟨l, hl, _⟩ := h
    cases hl
  | cons a rest ih =>
    intro hdrs moves h
    by_cases hbr : pyStartsWith "[" (pyStrip a) = true
    · cases hsp : splitFirstSpace (((pyStrip a).data.drop 1).dropLast) with
      | none =>
        unfold parsePgnGo
        simp only [hbr, if_true]
        unfold parseHeaderLine
        rw [hsp]
      | some kv =>
        have hna : isMalformedHeaderLine a = false := by
          unfold isMalformedHeaderLine
          rw [hsp]
          simp
        obtain ⟨l, hl, hml⟩ := h
        have hrest : ∃ l ∈ rest, isMalformedHeaderLine l = true := by
          cases List.mem_cons.1 hl with
          | inl h1 =>
            rw [h1] at hml
            rw [hml] at hna
            cases hna
          | inr h2 => exact ⟨l, h2, hml⟩
        unfold parsePgnGo
        simp only [hbr, if_true]
        unfold parseHeaderLine
        rw [hsp]
        exact ih _ _ hrest
    · have hbr' : pyStartsWith "[" (pyStrip a) = false :=
        Bool.not_eq_true _ ▸ hbr
      have hna : isMalformedHeaderLine a = false := by
        unfold isMalformedHeaderLine
        simp [hbr']
      obtain ⟨l, hl, hml⟩ := h
      have hrest : ∃ l ∈ rest, isMalformedHeaderLine l = true := by
        cases List.mem_cons.1 hl with
        | inl h1 =>
          rw [h1] at hml
          rw [hml] at hna
          cases hna
        | inr h2 => exact ⟨l, h2, hml⟩
      unfold parsePgnGo
      simp only [hbr', Bool.false_eq_true, if_false]
      by_cases hz : pyStrip a = ""
      · simp only [hz, if_true]
        exact ih _ _ hrest
      · simp only [hz, if_false]
        exact ih _ _ hrest

/-- Counterexample to C5: a block holding the malformed header `[BadTag]`
together with a perfectly good `Site` header and movetext does not yield a
record with only that field dropped — the parse exception escapes
`_process_game_block` and aborts processing. -/
theorem malformed_header_c5_cex :
    _process_game_block false 0
        ["[BadTag]", "[Site \"https://x/abc\"]", "1. e4"] ⟨[], [], []⟩
      = Except.error () := by
  rfl

/-- C5 (amended): a header line that starts with `[` but has no space
separator is NOT recovered locally — `parse_pgn_lines` raises `ValueError`
on it and the exception escapes `_process_game_block` uncaught, so the
whole block yields no record. -/
theorem malformed_header_c5 (lines : List String)
    (h : ∃ l ∈ lines, isMalformedHeaderLine l = true) :
    parse_pgn_lines lines = Except.error () ∧
    ∀ fail now st, _process_game_block fail now lines st = Except.error () := by
  have hp : parse_pgn_lines lines = Except.error () :=
    parsePgnGo_error lines [] [] h
  refine ⟨hp, ?_⟩
  intro fail now st
  unfold _process_game_block
  rw [hp]

/-- Witness for C5 (amended): the single-line block `[BadTag]`. -/
theorem malformed_header_c5_wit :
    parse_pgn_lines ["[BadTag]"] = Except.error () ∧
    ∀ fail now st, _process_game_block fail now ["[BadTag]"] st
      = Except.error () :=
  malformed_header_c5 ["[BadTag]"] (by decide)

/-! ### C6: storage failure accounting -/

/-- Counterexample to C6: with a storage failure injected (`fail = true`),
the transaction is rolled back and the table stays empty, but the failed
game's id `g1` IS counted — it lands in the `added` list, because
`upsert_game` returns `False` both on insert and on error and the caller
cannot tell the two apart. -/
theorem storage_failure_c6_cex :
    upsert_game true [] (build_game_data [("site", "https://x/g1")] 0)
      = ([], false, [DbOp.opRollback]) ∧
    _process_game_block true 0 ["[Site \"https://x/g1\"]", "1. e4"] ⟨[], [], []⟩
      = Except.ok ⟨[], ["g1"], []⟩ :=
  ⟨rfl, rfl⟩

/-- C6 (amended): a storage-layer exception during `upsert_game` rolls the
transaction back — the table is unchanged — and is reported as not
updated; but the ingestion loop then appends the failed game's id to the
`added` list, since the `False` return is indistinguishable from a
successful insert. -/
theorem storage_failure_c6 (now : Nat) (lines : List String) (st : PipeState)
    (game : Dict) (hparse : parse_pgn_lines lines = Except.ok game)
    (hsite : dictContains game "site" = true)
    (hid : ¬(build_game_data game now).id_game = "") :
    upsert_game true st.table (build_game_data game now)
      = (st.table, false, [DbOp.opRollback]) ∧
    _process_game_block true now lines st
      = Except.ok ⟨st.table,
          st.added ++ [(build_game_data game now).id_game], st.updated⟩ := by
  have hup : upsert_game true st.table (build_game_data game now)
      = (st.table, false, [DbOp.opRollback]) := by
    unfold upsert_game
    simp [hid]
  refine ⟨hup, ?_⟩
  unfold _process_game_block
  rw [hparse]
  simp only [hsite, if_true]
  rw [hup]
  simp

/-- Witness for C6 (amended): a concrete failing upsert of game `g2` onto
a non-trivial state — the id ends up appended to `added`. -/
theorem storage_failure_c6_wit :
    upsert_game true [] (build_game_data [("moves", "1. e4"),
        ("site", "https://x/g2")] 4)
      = ([], false, [DbOp.opRollback]) ∧
    _process_game_block true 4 ["[Site \"https://x/g2\"]", "1. e4"]
        ⟨[], ["a0"], ["u0"]⟩
      = Except.ok ⟨[], ["a0", "g2"], ["u0"]⟩ :=
  storage_failure_c6 4 ["[Site \"https://x/g2\"]", "1. e4"] ⟨[], ["a0"], ["u0"]⟩
    [("moves", "1. e4"), ("site", "https://x/g2")] rfl rfl (by decide)

end KnightShift
